import Mathlib

/-!
Shallow embedding of the SolanaBot repository core (src/src/worker.ts,
src/src/bot.ts, src/unnamed/part_000) and proofs about its claims.

Money amounts are modelled as rationals, public keys as natural numbers,
byte-count results of the metaplex decoder as integers.
-/

namespace SolanaBot

/-! ## Constants (src/src/worker.ts, lines 6-8) -/

def LAMPORTS_PER_SOL : ℚ := 1000000000

def MIN_BUY_THRESHOLD : ℚ := 1 / 100000

def MIN_BALANCE_THRESHOLD : ℚ := 1 / 1000

/-! ## String containment (JS `String.prototype.includes`) -/

def starts_with : List Char → List Char → Bool
  | _, [] => true
  | [], _ :: _ => false
  | a :: as, b :: bs => a == b && starts_with as bs

def has_sub : List Char → List Char → Bool
  | [], ys => ys.isEmpty
  | x :: xs, ys => starts_with (x :: xs) ys || has_sub xs ys

/-- JS `s.includes(t)` for strings: `t` occurs as a contiguous substring of `s`. -/
def str_contains (s t : String) : Bool := has_sub s.data t.data

/-! ## Worker data model (src/src/worker.ts) -/

/-- The `WORKER_CONFIG.inputs` fields read by the worker. -/
structure Inputs where
  mcap_threshold : ℚ
  spend_limit : ℚ
  start_buy : ℚ
  buy_interval : ℚ
deriving DecidableEq

/-- `common.TokenMeta` as used by the worker (`MINT_METADATA`). -/
structure TokenMeta where
  mint : Nat
  symbol : String
  usd_market_cap : ℚ
  raydium_pool : Option Nat
deriving DecidableEq

/-- The worker's module-level mutable state (IS_DONE, START_SELL,
CURRENT_SPENDINGS, CURRENT_BUY_AMOUNT, IS_SECOND_BUY). -/
structure WorkerState where
  is_done : Bool
  start_sell : Bool
  current_spendings : ℚ
  current_buy_amount : ℚ
  is_second_buy : Bool
deriving DecidableEq

/-- Environment of one buy attempt: whether `trade.buy_token` succeeds,
whether `trade.get_balance_change` succeeds and what it returns, and the
randomness consumed by the normal draw. -/
structure BuyResult where
  success : Bool
  balance_change_ok : Bool
  balance_change : ℚ
  noise : ℚ
deriving DecidableEq

/-- Modelled from the spec: `common.normal_random` lives in `src/common.ts`,
which is not part of the repository slice.  The spec describes it as a draw
from a normal distribution with the given mean and standard deviation; we
model the draw as `mean + std * noise` for an arbitrary noise input, so the
value at `noise = 0` is the centre of the distribution. -/
def normal_random (mean std noise : ℚ) : ℚ := mean + std * noise

/-- The amount drawn in `buy` (worker.ts lines 40-41):
`std = CURRENT_BUY_AMOUNT * 0.1; amount = normal_random(inputs.start_buy, std)`. -/
def buy_amount_drawn (cfg : Inputs) (s : WorkerState) (noise : ℚ) : ℚ :=
  normal_random cfg.start_buy (s.current_buy_amount * (1 / 10)) noise

/-- State update of one call to `buy` (worker.ts lines 38-58).
On success: spendings grow by the measured balance change (falling back to
the requested amount when `get_balance_change` fails), the buy amount is
halved when `IS_SECOND_BUY` is set, and the flag toggles.  When
`trade.buy_token` throws, the catch branch leaves all state unchanged. -/
def buy_step (cfg : Inputs) (s : WorkerState) (r : BuyResult) : WorkerState :=
  if r.success then
    let amount := buy_amount_drawn cfg s r.noise
    let change := if r.balance_change_ok then r.balance_change else amount
    { s with
      current_spendings := s.current_spendings + change
      current_buy_amount :=
        if s.is_second_buy then s.current_buy_amount / 2 else s.current_buy_amount
      is_second_buy := !s.is_second_buy }
  else s

/-- A sequence of buy attempts. -/
def run_buys (cfg : Inputs) (s : WorkerState) (rs : List BuyResult) : WorkerState :=
  rs.foldl (buy_step cfg) s

/-- Number of successful attempts in a list of buy results. -/
def count_succ (rs : List BuyResult) : Nat :=
  (rs.filter fun r => r.success).length

/-! ## The control loop (worker.ts lines 80-111) -/

/-- The decision taken at the head of one loop iteration.  `noMetadata`
covers `MINT_METADATA` being undefined, null or an empty object (we model
all three as the metadata snapshot being `none`). -/
inductive CycleAction
  | buyAct
  | skipSpend
  | mcapBreak
  | noMetadata
deriving DecidableEq

/-- The branch structure of worker.ts lines 82-92: market-cap check first,
then the spend/buy-size gate `CURRENT_SPENDINGS < spend_limit * LAMPORTS_PER_SOL
&& CURRENT_BUY_AMOUNT > MIN_BUY_THRESHOLD`. -/
def cycle_decision (cfg : Inputs) (s : WorkerState) (meta : Option TokenMeta) :
    CycleAction :=
  match meta with
  | none => .noMetadata
  | some m =>
    if cfg.mcap_threshold ≤ m.usd_market_cap then .mcapBreak
    else if s.current_spendings < cfg.spend_limit * LAMPORTS_PER_SOL ∧
        MIN_BUY_THRESHOLD < s.current_buy_amount then .buyAct
    else .skipSpend

/-- Commands that can arrive from the parent thread while the loop is inside
a buy attempt or the pacing sleep.  `buy` (sent once, to start the loop) and
`mint` (whose payload is modelled through the per-cycle metadata snapshot)
are not interrupts. -/
inductive ICmd
  | sellI
  | collectI
  | stopI
deriving DecidableEq

/-- Effect of an interrupting command on the loop flags
(worker.ts lines 133-153).  `sell` sets both flags when the sell flag is not
yet set; `collect` and `stop` set `IS_DONE` when it is not yet set (and cancel
the pending sleep, which in this model means the loop re-checks `IS_DONE`
immediately at the next step). -/
def apply_interrupt (s : WorkerState) : Option ICmd → WorkerState
  | none => s
  | some .sellI =>
      if s.start_sell then s else { s with is_done := true, start_sell := true }
  | some .collectI => if s.is_done then s else { s with is_done := true }
  | some .stopI => if s.is_done then s else { s with is_done := true }

/-- Environment of one loop cycle: the metadata snapshot observed at the top
of the cycle, the outcome of a buy attempt should one happen, and the command
(if any) arriving while the cycle is suspended. -/
structure CycleEnv where
  metadata : Option TokenMeta
  buy_result : BuyResult
  interrupt : Option ICmd
deriving DecidableEq

/-- Observable actions of the worker. -/
inductive Act
  | buyA
  | skipA
  | noMetaA
  | mcapBreakA
  | sellA
deriving DecidableEq

/-- The `while (!IS_DONE)` loop of `control_loop`, driven by a finite list of
cycle environments.  Returns the actions taken, the final state, and whether
the loop has exited (`true`) or merely ran out of observed cycles (`false`).
When the market-cap threshold is reached the loop sets `START_SELL` and
breaks without sleeping, so the pending interrupt of that cycle never
applies. -/
def run_loop (cfg : Inputs) (s : WorkerState) : List CycleEnv → List Act × WorkerState × Bool
  | [] => ([], s, s.is_done)
  | e :: rest =>
    if s.is_done then ([], s, true)
    else
      match cycle_decision cfg s e.metadata with
      | .noMetadata =>
        let s1 := apply_interrupt s e.interrupt
        let r := run_loop cfg s1 rest
        (Act.noMetaA :: r.1, r.2)
      | .mcapBreak => ([Act.mcapBreakA], { s with start_sell := true }, true)
      | .buyAct =>
        let s1 := apply_interrupt (buy_step cfg s e.buy_result) e.interrupt
        let r := run_loop cfg s1 rest
        (Act.buyA :: r.1, r.2)
      | .skipSpend =>
        let s1 := apply_interrupt s e.interrupt
        let r := run_loop cfg s1 rest
        (Act.skipA :: r.1, r.2)

/-- `control_loop` including its epilogue (worker.ts lines 107-108): once the
loop has exited, a single sell attempt runs iff `START_SELL` is set. -/
def worker_run (cfg : Inputs) (s : WorkerState) (envs : List CycleEnv) : List Act :=
  let r := run_loop cfg s envs
  r.1 ++ (if r.2.2 && r.2.1.start_sell then [Act.sellA] else [])

/-! ## The sell attempt (worker.ts lines 60-78) -/

/-- Result of `trade.get_token_balance`: `uiAmount` is a number or null. -/
structure TokenBalance where
  ui_amount : Option ℚ
deriving DecidableEq

inductive SellOutcome
  | nothingToSell
  | sold (amount : ℚ)
  | raydiumStub
  | errorTerminal
deriving DecidableEq

/-- One call to `sell`.  `bal` is `none` when `get_token_balance` throws;
`sell_ok` tells whether `trade.sell_token` succeeds when invoked.  The second
component records whether the trade executor's sell capability was invoked.
The raydium branch (worker.ts line 72) is commented out in the source: it
assigns an empty signature without calling the executor.  The catch branch
reports "you will have to sell manually" and returns: a failed sell is never
retried by this function. -/
def sell_attempt (meta : TokenMeta) (bal : Option TokenBalance) (sell_ok : Bool) :
    SellOutcome × Bool :=
  match bal with
  | none => (.errorTerminal, false)
  | some b =>
    match b.ui_amount with
    | none => (.nothingToSell, false)
    | some a =>
      if a = 0 then (.nothingToSell, false)
      else
        match meta.raydium_pool with
        | none => if sell_ok then (.sold a, true) else (.errorTerminal, true)
        | some _ => (.raydiumStub, false)

/-! ## The message handler (worker.ts lines 126-157) -/

/-- State visible to the parent-port message handler.  `cancel_sleep_defined`
is false until `control_loop` assigns `CANCEL_SLEEP` at its first pacing
sleep (worker.ts line 102); before that, `var CANCEL_SLEEP` is undefined and
calling it throws. -/
structure HandlerState where
  is_done : Bool
  start_sell : Bool
  cancel_sleep_defined : Bool
  metadata : Option TokenMeta
deriving DecidableEq

inductive Cmd
  | sellCmd
  | collectCmd
  | stopCmd
  | mintCmd (m : TokenMeta)
deriving DecidableEq

/-- Result of handling one message: the state afterwards and the status
messages posted to the parent.  `fault` models the TypeError raised by
calling the undefined `CANCEL_SLEEP`; the message post and the `IS_DONE`
write happen before the call, so they are kept in the fault state. -/
inductive HandleRes
  | ok (s : HandlerState) (msgs : List String)
  | fault (s : HandlerState) (msgs : List String)
deriving DecidableEq

def HandleRes.is_ok : HandleRes → Bool
  | .ok _ _ => true
  | .fault _ _ => false

/-- The four command arms of the `parentPort.on('message')` handler.
`sell` is gated on `START_SELL`; `collect` and `stop` are gated on `IS_DONE`
and call `CANCEL_SLEEP()` unconditionally. -/
def handle_cmd (s : HandlerState) : Cmd → HandleRes
  | .sellCmd =>
    if s.start_sell then .ok s []
    else .ok { s with is_done := true, start_sell := true }
      ["Received sell command from the main thread"]
  | .collectCmd =>
    if s.is_done then .ok s []
    else if s.cancel_sleep_defined then
      .ok { s with is_done := true } ["Received collect command from the main thread"]
    else .fault { s with is_done := true } ["Received collect command from the main thread"]
  | .stopCmd =>
    if s.is_done then .ok s []
    else if s.cancel_sleep_defined then
      .ok { s with is_done := true } ["Stopped by the main thread"]
    else .fault { s with is_done := true } ["Stopped by the main thread"]
  | .mintCmd m => .ok { s with metadata := some m } []

/-- Worker module state at load time (worker.ts lines 15-21). -/
def initial_handler_state : HandlerState :=
  { is_done := false, start_sell := false, cancel_sleep_defined := false,
    metadata := none }

/-! ## Orchestrator: start_workers (src/unnamed/part_000, lines 138-163) -/

/-- `BotConfig` (src/src/bot.ts lines 10-18). -/
structure BotConfig where
  thread_cnt : Nat
  buy_interval : Nat
  spend_limit : Nat
  return_pubkey : String
  mcap_threshold : Nat
  token_name : String
  token_ticker : String
deriving DecidableEq

/-- `common.WorkerConfig` as built in `start_workers`: `secrets[i]` is a JS
out-of-bounds read when `i` exceeds the credential list, hence an `Option`. -/
structure WorkerData where
  secret : Option (List Nat)
  id : Nat
  config : BotConfig
deriving DecidableEq

inductive StartError
  | NoCredentials
deriving DecidableEq

/-- `start_workers`: exits with an error when the key list is empty,
otherwise spawns one worker per index `0 ≤ i < config.thread_cnt` with
`secret := secrets[i]` and `id := i + 1`. -/
def start_workers (config : BotConfig) (secrets : List (List Nat)) :
    Except StartError (List WorkerData) :=
  if secrets.isEmpty then .error .NoCredentials
  else .ok ((List.range config.thread_cnt).map fun i =>
    { secret := secrets.get? i, id := i + 1, config := config })

/-! ## Asset detector (src/unnamed/part_000, lines 88-128) -/

/-- One inner instruction, with the metaplex decode treated as an opaque
capability returning (name, symbol, bytes_read), per the spec's design note. -/
structure Instr where
  program_is_metaplex : Bool
  bytes_read : Int
  name : String
  symbol : String
  accounts : List Nat
deriving DecidableEq

/-- The fields of a parsed transaction read by the detector callback.
`post_token_balances` is `none` when the JS field is null (the guard on
line 95 returns); an element is `none` when the record's `mint` field is
falsy.  `account_keys` pairs each key with its signer flag. -/
structure ParsedTx where
  inner_instructions : Option (List (List Instr))
  post_token_balances : Option (List (Option Nat))
  account_keys : List (Nat × Bool)
deriving DecidableEq

/-- One `onLogs` callback invocation: the error flag, the log lines, and the
parsed transaction (`none` when `getParsedTransaction` yields null or a
record failing the null guards). -/
structure LogEvent where
  err : Bool
  logs : Option (List String)
  tx : Option ParsedTx
deriving DecidableEq

def mintto_marker : String := "Program log: Instruction: MintTo"

/-- The per-instruction filter of the detector's double loop: the
instruction must come from the metaplex program, decode to a positive byte
count, and its decoded name must equal the target name while the decoded
symbol contains the target ticker. -/
def instr_matches (token_name token_ticker : String) (i : Instr) : Bool :=
  i.program_is_metaplex && decide (0 < i.bytes_read) && (i.name == token_name)
    && str_contains i.symbol token_ticker

/-- Result of the instruction scan: `crash` models the TypeError of
`postTokenBalances[0].mint` when the list is empty (caught by the outer
catch, so the mint assignments made before the throw persist). -/
inductive ScanRes
  | crash (m : Option Nat)
  | ok (m : Option Nat)
deriving DecidableEq

/-- The nested instruction loop (part_000 lines 100-115), flattened:
on a match the candidate mint becomes the first post-token-balance record's
mint when that is set, else `partial.accounts[1]` (possibly a JS undefined,
hence `Option`). -/
def scan_instrs (token_name token_ticker : String) (ptb : List (Option Nat)) :
    Option Nat → List Instr → ScanRes
  | m, [] => .ok m
  | m, i :: rest =>
    if instr_matches token_name token_ticker i then
      match ptb with
      | [] => .crash m
      | r :: _ =>
        match r with
        | some addr => scan_instrs token_name token_ticker ptb (some addr) rest
        | none => scan_instrs token_name token_ticker ptb (i.accounts.get? 1) rest
    else scan_instrs token_name token_ticker ptb m rest

/-- `tx.transaction.message.accountKeys.filter(key => key.signer)`. -/
def tx_signers (tx : ParsedTx) : List Nat :=
  (tx.account_keys.filter fun kv => kv.2).map fun kv => kv.1

/-- `signers.some(({pubkey}) => mint !== undefined && pubkey.equals(mint))`. -/
def mint_in_signers (m : Option Nat) (sgs : List Nat) : Bool :=
  sgs.any fun pk => m == some pk

/-- Signer list of an event's transaction (empty when no transaction). -/
def event_signers (ev : LogEvent) : List Nat :=
  match ev.tx with
  | none => []
  | some tx => tx_signers tx

/-- One invocation of the detector callback (part_000 lines 90-123) on the
current candidate mint.  Returns the candidate afterwards and whether the
detector finalized (called `wait_drop_unsub`). -/
def process_event (token_name token_ticker : String) (m : Option Nat)
    (ev : LogEvent) : Option Nat × Bool :=
  if ev.err then (m, false)
  else
    match ev.logs with
    | none => (m, false)
    | some ls =>
      if ls.contains mintto_marker then
        match ev.tx with
        | none => (m, false)
        | some tx =>
          match tx.post_token_balances with
          | none => (m, false)
          | some ptb =>
            match tx.inner_instructions with
            | none => (m, false)
            | some inners =>
              match scan_instrs token_name token_ticker ptb m inners.flatten with
              | .crash m1 => (m1, false)
              | .ok m1 => (m1, mint_in_signers m1 (tx_signers tx))
      else (m, false)

/-- Whether some decoded instruction of the event's transaction matches the
configured target name/ticker. -/
def tx_matches (token_name token_ticker : String) (ev : LogEvent) : Bool :=
  match ev.tx with
  | none => false
  | some tx =>
    match tx.inner_instructions with
    | none => false
    | some inners => inners.flatten.any (instr_matches token_name token_ticker)

/-- The detector over a stream of events: the candidate mint persists across
callback invocations; processing stops once the detector finalizes. -/
def detector_run (token_name token_ticker : String) :
    Option Nat → List LogEvent → Option Nat × Bool
  | m, [] => (m, false)
  | m, e :: rest =>
    let r := process_event token_name token_ticker m e
    if r.2 then r else detector_run token_name token_ticker r.1 rest

/-! ## Concrete fixtures used by counterexamples and witnesses -/

/-- A worker configuration with `start_buy = 2`. -/
def cfgA : Inputs :=
  { mcap_threshold := 50000, spend_limit := 1, start_buy := 2, buy_interval := 30 }

/-- A worker state after the buy size has decayed to half of `start_buy`. -/
def stA : WorkerState :=
  { is_done := false, start_sell := false, current_spendings := 0,
    current_buy_amount := 1, is_second_buy := false }

/-- A fresh worker state with a small current buy size. -/
def stSmall : WorkerState :=
  { is_done := false, start_sell := false, current_spendings := 0,
    current_buy_amount := 1 / 200000, is_second_buy := false }

/-- A metadata snapshot far below the market-cap threshold of `cfgA`. -/
def metaLow : TokenMeta :=
  { mint := 9, symbol := "TK", usd_market_cap := 10, raydium_pool := none }

/-- A metadata snapshot above the market-cap threshold of `cfgA`. -/
def metaHigh : TokenMeta :=
  { mint := 9, symbol := "TK", usd_market_cap := 60000, raydium_pool := none }

/-- A successful buy attempt with a measured balance change. -/
def buyOk : BuyResult :=
  { success := true, balance_change_ok := true, balance_change := 1, noise := 0 }

/-- A failed buy attempt. -/
def buyFail : BuyResult :=
  { success := false, balance_change_ok := false, balance_change := 0, noise := 0 }

/-- A quiet cycle: metadata low, no interrupt. -/
def envQuiet : CycleEnv :=
  { metadata := some metaLow, buy_result := buyOk, interrupt := none }

/-- A cycle whose pacing sleep is interrupted by a `collect` command. -/
def envCollect : CycleEnv :=
  { metadata := some metaLow, buy_result := buyOk, interrupt := some .collectI }

/-- A cycle observing a market cap above the threshold. -/
def envMcap : CycleEnv :=
  { metadata := some metaHigh, buy_result := buyOk, interrupt := none }

/-- A metadata snapshot with a secondary-market (raydium) pool reference. -/
def metaRay : TokenMeta :=
  { mint := 1, symbol := "SB", usd_market_cap := 0, raydium_pool := some 5 }

/-- A token balance with nonzero holdings. -/
def balSome : TokenBalance := { ui_amount := some 3 }

/-- Handler state of an agent that reached `Done` through `collect`/`stop`:
terminal flag set, sell flag clear. -/
def stDoneCollect : HandlerState :=
  { is_done := true, start_sell := false, cancel_sleep_defined := true,
    metadata := none }

/-- Handler state of an agent that reached `Done` with the sell flag set. -/
def stSellDone : HandlerState :=
  { is_done := true, start_sell := true, cancel_sleep_defined := true,
    metadata := none }

/-- Handler state of a running agent whose first pacing sleep has started. -/
def stReady : HandlerState :=
  { is_done := false, start_sell := false, cancel_sleep_defined := true,
    metadata := none }

/-- `stReady` after one `stop` command. -/
def stStopped : HandlerState :=
  { is_done := true, start_sell := false, cancel_sleep_defined := true,
    metadata := none }

/-- An orchestrator configuration requesting two agents. -/
def cfgB : BotConfig :=
  { thread_cnt := 2, buy_interval := 30, spend_limit := 1,
    return_pubkey := "5oZ", mcap_threshold := 50000,
    token_name := "TOK", token_ticker := "TK" }

/-- A metaplex instruction whose decoded name/symbol match the target
name "TOK" / ticker "TK". -/
def instrMatch : Instr :=
  { program_is_metaplex := true, bytes_read := 10, name := "TOK",
    symbol := "xTKx", accounts := [3, 4] }

/-- A transaction matching name/symbol whose resolved identifier (7, from
the first post-token balance) is NOT among its signers (only key 1 signs). -/
def txCandidate : ParsedTx :=
  { inner_instructions := some [[instrMatch]],
    post_token_balances := some [some 7],
    account_keys := [(1, true), (3, false)] }

def evCandidate : LogEvent :=
  { err := false, logs := some [mintto_marker], tx := some txCandidate }

/-- A transaction with no matching instruction at all, but signed by key 7
(the stale candidate recorded earlier). -/
def txStale : ParsedTx :=
  { inner_instructions := some [],
    post_token_balances := some [],
    account_keys := [(7, true)] }

def evStale : LogEvent :=
  { err := false, logs := some [mintto_marker], tx := some txStale }

/-- A transaction matching name/symbol whose resolved identifier is among
its signers: the genuine finalizing case. -/
def txFinal : ParsedTx :=
  { inner_instructions := some [[instrMatch]],
    post_token_balances := some [some 7],
    account_keys := [(7, true)] }

def evFinal : LogEvent :=
  { err := false, logs := some [mintto_marker], tx := some txFinal }

/-! ## Helper lemmas -/

lemma apply_interrupt_buy_amount (s : WorkerState) (i : Option ICmd) :
    (apply_interrupt s i).current_buy_amount = s.current_buy_amount := by
  cases i with
  | none => rfl
  | some c => cases c <;> simp only [apply_interrupt] <;> split <;> rfl

lemma cycle_decision_buy_gate (cfg : Inputs) (s : WorkerState) (meta : Option TokenMeta)
    (h : cycle_decision cfg s meta = .buyAct) :
    s.current_spendings < cfg.spend_limit * LAMPORTS_PER_SOL ∧
      MIN_BUY_THRESHOLD < s.current_buy_amount := by
  cases meta with
  | none => simp [cycle_decision] at h
  | some m =>
    simp only [cycle_decision] at h
    split at h
    · simp at h
    · split at h
      · assumption
      · simp at h

lemma no_buy_below_threshold (cfg : Inputs) :
    ∀ (envs : List CycleEnv) (s : WorkerState),
      s.current_buy_amount ≤ MIN_BUY_THRESHOLD →
      Act.buyA ∉ (run_loop cfg s envs).1 := by
  intro envs
  induction envs with
  | nil => intro s _; simp [run_loop]
  | cons e rest ih =>
    intro s h
    simp only [run_loop]
    split
    · simp
    · cases hcd : cycle_decision cfg s e.metadata with
      | noMetadata =>
        simp only [hcd, List.mem_cons]
        rintro (habs | hmem)
        · cases habs
        · exact ih (apply_interrupt s e.interrupt)
            (by rw [apply_interrupt_buy_amount]; exact h) hmem
      | mcapBreak => simp [hcd]
      | buyAct =>
        have := (cycle_decision_buy_gate cfg s e.metadata hcd).2
        exact absurd h (not_le.mpr this)
      | skipSpend =>
        simp only [hcd, List.mem_cons]
        rintro (habs | hmem)
        · cases habs
        · exact ih (apply_interrupt s e.interrupt)
            (by rw [apply_interrupt_buy_amount]; exact h) hmem

lemma buy_step_fail (cfg : Inputs) (s : WorkerState) (r : BuyResult)
    (h : r.success = false) : buy_step cfg s r = s := by
  simp [buy_step, h]

lemma run_buys_amount (cfg : Inputs) :
    ∀ (rs : List BuyResult) (s : WorkerState),
      (run_buys cfg s rs).current_buy_amount
          = s.current_buy_amount
              / 2 ^ ((count_succ rs + s.is_second_buy.toNat) / 2) ∧
      (run_buys cfg s rs).is_second_buy
          = decide ((count_succ rs + s.is_second_buy.toNat) % 2 = 1) := by
  intro rs
  induction rs with
  | nil =>
    intro s
    cases hb : s.is_second_buy <;>
      norm_num [run_buys, count_succ, hb]
  | cons r rest ih =>
    intro s
    have hfold : run_buys cfg s (r :: rest) = run_buys cfg (buy_step cfg s r) rest := rfl
    by_cases hr : r.success
    · have hcount : count_succ (r :: rest) = count_succ rest + 1 := by
        simp [count_succ, hr]
      cases hb : s.is_second_buy
      · -- flag false: no halving, flag becomes true
        have hs1 : (buy_step cfg s r).current_buy_amount = s.current_buy_amount := by
          simp [buy_step, hr, hb]
        have hs2 : (buy_step cfg s r).is_second_buy = true := by
          simp [buy_step, hr, hb]
        obtain ⟨iha, ihf⟩ := ih (buy_step cfg s r)
        rw [hfold]
        constructor
        · rw [iha, hs1, hs2, hcount]
          simp
        · rw [ihf, hs2, hcount]
          simp
      · -- flag true: halving, flag becomes false
        have hs1 : (buy_step cfg s r).current_buy_amount = s.current_buy_amount / 2 := by
          simp [buy_step, hr, hb]
        have hs2 : (buy_step cfg s r).is_second_buy = false := by
          simp [buy_step, hr, hb]
        obtain ⟨iha, ihf⟩ := ih (buy_step cfg s r)
        rw [hfold]
        constructor
        · rw [iha, hs1, hs2, hcount]
          simp only [Bool.toNat_false, Bool.toNat_true, Nat.add_zero]
          have hnat : (count_succ rest + 1 + 1) / 2 = count_succ rest / 2 + 1 := by omega
          rw [hnat, pow_succ, div_div]
          ring
        · rw [ihf, hs2, hcount]
          simp only [Bool.toNat_false, Bool.toNat_true, Nat.add_zero]
          have hnat : (count_succ rest + 1 + 1) % 2 = count_succ rest % 2 := by omega
          simp [hnat]
    · have hr' : r.success = false := by simpa using hr
      have hcount : count_succ (r :: rest) = count_succ rest := by
        simp [count_succ, hr']
      rw [hfold, buy_step_fail cfg s r hr', hcount]
      exact ih s

lemma run_loop_of_done (cfg : Inputs) (envs : List CycleEnv) (s : WorkerState)
    (h : s.is_done = true) : run_loop cfg s envs = ([], s, true) := by
  cases envs <;> simp [run_loop, h]

lemma run_loop_cons_noMeta (cfg : Inputs) (e : CycleEnv) (rest : List CycleEnv)
    (s : WorkerState) (hdone : s.is_done = false)
    (hcd : cycle_decision cfg s e.metadata = .noMetadata) :
    run_loop cfg s (e :: rest) =
      (Act.noMetaA :: (run_loop cfg (apply_interrupt s e.interrupt) rest).1,
       (run_loop cfg (apply_interrupt s e.interrupt) rest).2) := by
  simp [run_loop, hdone, hcd]

lemma run_loop_cons_mcap (cfg : Inputs) (e : CycleEnv) (rest : List CycleEnv)
    (s : WorkerState) (hdone : s.is_done = false)
    (hcd : cycle_decision cfg s e.metadata = .mcapBreak) :
    run_loop cfg s (e :: rest) =
      ([Act.mcapBreakA], { s with start_sell := true }, true) := by
  simp [run_loop, hdone, hcd]

lemma run_loop_cons_buy (cfg : Inputs) (e : CycleEnv) (rest : List CycleEnv)
    (s : WorkerState) (hdone : s.is_done = false)
    (hcd : cycle_decision cfg s e.metadata = .buyAct) :
    run_loop cfg s (e :: rest) =
      (Act.buyA ::
        (run_loop cfg (apply_interrupt (buy_step cfg s e.buy_result) e.interrupt) rest).1,
       (run_loop cfg (apply_interrupt (buy_step cfg s e.buy_result) e.interrupt) rest).2) := by
  simp [run_loop, hdone, hcd]

lemma run_loop_cons_skip (cfg : Inputs) (e : CycleEnv) (rest : List CycleEnv)
    (s : WorkerState) (hdone : s.is_done = false)
    (hcd : cycle_decision cfg s e.metadata = .skipSpend) :
    run_loop cfg s (e :: rest) =
      (Act.skipA :: (run_loop cfg (apply_interrupt s e.interrupt) rest).1,
       (run_loop cfg (apply_interrupt s e.interrupt) rest).2) := by
  simp [run_loop, hdone, hcd]

lemma apply_interrupt_collect_done (s : WorkerState) :
    (apply_interrupt s (some .collectI)).is_done = true := by
  by_cases h : s.is_done <;> simp [apply_interrupt, h]

lemma run_loop_mcap_shape (cfg : Inputs) :
    ∀ (envs : List CycleEnv) (s : WorkerState),
      Act.mcapBreakA ∈ (run_loop cfg s envs).1 →
      ∃ pre, (run_loop cfg s envs).1 = pre ++ [Act.mcapBreakA] ∧
        (run_loop cfg s envs).2.2 = true ∧
        (run_loop cfg s envs).2.1.start_sell = true := by
  intro envs
  induction envs with
  | nil => intro s h; simp [run_loop] at h
  | cons e rest ih =>
    intro s h
    cases hdone : s.is_done with
    | true => rw [run_loop_of_done cfg _ s hdone] at h; simp at h
    | false =>
      cases hcd : cycle_decision cfg s e.metadata with
      | noMetadata =>
        rw [run_loop_cons_noMeta cfg e rest s hdone hcd] at h ⊢
        simp only [List.mem_cons] at h
        rcases h with habs | hmem
        · cases habs
        · obtain ⟨pre, hpre, hex, hsell⟩ := ih (apply_interrupt s e.interrupt) hmem
          exact ⟨Act.noMetaA :: pre, by simp [hpre], hex, hsell⟩
      | mcapBreak =>
        rw [run_loop_cons_mcap cfg e rest s hdone hcd]
        exact ⟨[], rfl, rfl, rfl⟩
      | buyAct =>
        rw [run_loop_cons_buy cfg e rest s hdone hcd] at h ⊢
        simp only [List.mem_cons] at h
        rcases h with habs | hmem
        · cases habs
        · obtain ⟨pre, hpre, hex, hsell⟩ :=
            ih (apply_interrupt (buy_step cfg s e.buy_result) e.interrupt) hmem
          exact ⟨Act.buyA :: pre, by simp [hpre], hex, hsell⟩
      | skipSpend =>
        rw [run_loop_cons_skip cfg e rest s hdone hcd] at h ⊢
        simp only [List.mem_cons] at h
        rcases h with habs | hmem
        · cases habs
        · obtain ⟨pre, hpre, hex, hsell⟩ := ih (apply_interrupt s e.interrupt) hmem
          exact ⟨Act.skipA :: pre, by simp [hpre], hex, hsell⟩

lemma scan_instrs_no_match (tn tk : String) (ptb : List (Option Nat)) :
    ∀ (l : List Instr) (m : Option Nat),
      (∀ i ∈ l, instr_matches tn tk i = false) →
      scan_instrs tn tk ptb m l = .ok m := by
  intro l
  induction l with
  | nil => intro m _; rfl
  | cons i rest ih =>
    intro m h
    have hi : instr_matches tn tk i = false := h i (List.mem_cons_self i rest)
    simp only [scan_instrs, hi]
    exact ih m fun j hj => h j (List.mem_cons_of_mem i hj)

lemma mint_in_signers_none (sgs : List Nat) :
    mint_in_signers none sgs = false := by
  simp [mint_in_signers]

lemma process_event_eq (tn tk : String) (m : Option Nat) (ls : List String)
    (tx : ParsedTx) (ptb : List (Option Nat)) (inners : List (List Instr))
    (hmk : mintto_marker ∈ ls)
    (hptb : tx.post_token_balances = some ptb)
    (hinn : tx.inner_instructions = some inners) :
    process_event tn tk m { err := false, logs := some ls, tx := some tx }
      = match scan_instrs tn tk ptb m inners.flatten with
        | .crash m1 => (m1, false)
        | .ok m1 => (m1, mint_in_signers m1 (tx_signers tx)) := by
  simp [process_event, hmk, hptb, hinn]

/-! ## Claims -/

/-- Claim C1: the randomized buy amount in `buy` is drawn centered on
`WORKER_CONFIG.inputs.start_buy`, the configured initial buy size, with
standard deviation `CURRENT_BUY_AMOUNT * 0.1` — so while the standard
deviation tracks the decayed current buy size, the centre of the
distribution does NOT: evaluated at a state where the current buy size has
decayed to 1 (with `start_buy = 2`), the zero-noise draw is 2, the initial
size, contradicting the claim that the draw is centered on the current
(decayed) buy size and that the centre is not the configured initial size. -/
theorem c1_buy_draw_centered_on_start_buy :
    (∀ (cfg : Inputs) (s : WorkerState) (noise : ℚ),
       buy_amount_drawn cfg s noise
           = cfg.start_buy + s.current_buy_amount * (1 / 10) * noise) ∧
    buy_amount_drawn cfgA stA 0 = 2 ∧
    stA.current_buy_amount = 1 ∧ (2 : ℚ) ≠ 1 := by
  refine ⟨fun cfg s noise => rfl, ?_, rfl, by norm_num⟩
  norm_num [buy_amount_drawn, normal_random, cfgA, stA]

/-- Claim C4: in an `Active` cycle (metadata present, market cap below the
threshold), a buy attempt is executed iff the accumulated spending is
strictly below `spend_limit * LAMPORTS_PER_SOL` and the current buy size is
strictly above `MIN_BUY_THRESHOLD`; and once the buy size is at or below the
threshold, no cycle of any subsequent run ever issues a buy, regardless of
remaining spend headroom. -/
theorem c4_buy_gate :
    (∀ (cfg : Inputs) (s : WorkerState) (m : TokenMeta),
       m.usd_market_cap < cfg.mcap_threshold →
       (cycle_decision cfg s (some m) = .buyAct ↔
         s.current_spendings < cfg.spend_limit * LAMPORTS_PER_SOL ∧
           MIN_BUY_THRESHOLD < s.current_buy_amount)) ∧
    (∀ (cfg : Inputs) (s : WorkerState) (envs : List CycleEnv),
       s.current_buy_amount ≤ MIN_BUY_THRESHOLD →
       Act.buyA ∉ (run_loop cfg s envs).1) := by
  constructor
  · intro cfg s m hm
    constructor
    · exact cycle_decision_buy_gate cfg s (some m)
    · intro hcond
      simp only [cycle_decision]
      rw [if_neg (not_le.mpr hm), if_pos hcond]
  · intro cfg s envs h
    exact no_buy_below_threshold cfg envs s h

/-- Witness for C4 at a concrete configuration and state. -/
theorem c4_buy_gate_witness :
    (cycle_decision cfgA stA (some metaLow) = .buyAct ↔
      stA.current_spendings < cfgA.spend_limit * LAMPORTS_PER_SOL ∧
        MIN_BUY_THRESHOLD < stA.current_buy_amount) ∧
    Act.buyA ∉ (run_loop cfgA stSmall [envQuiet]).1 :=
  ⟨c4_buy_gate.1 cfgA stA metaLow (by norm_num [cfgA, metaLow]),
   c4_buy_gate.2 cfgA stSmall [envQuiet]
     (by norm_num [stSmall, MIN_BUY_THRESHOLD])⟩

/-- Claim C5: starting with the alternating flag clear, over any sequence of
buy attempts the current buy size equals the initial size divided by
`2 ^ (successes / 2)` (halved exactly on every second successful attempt),
hence it never increases; the flag after the run reflects the parity of the
number of successes (it advances only on success); and a failed attempt
leaves the whole state — spent accumulator and decay flag included —
unchanged. -/
theorem c5_buy_size_decay :
    (∀ (cfg : Inputs) (s : WorkerState) (rs : List BuyResult),
       s.is_second_buy = false → 0 ≤ s.current_buy_amount →
       (run_buys cfg s rs).current_buy_amount
           = s.current_buy_amount / 2 ^ (count_succ rs / 2) ∧
       (run_buys cfg s rs).is_second_buy = decide (count_succ rs % 2 = 1) ∧
       (run_buys cfg s rs).current_buy_amount ≤ s.current_buy_amount) ∧
    (∀ (cfg : Inputs) (s : WorkerState) (r : BuyResult),
       r.success = false → buy_step cfg s r = s) := by
  constructor
  · intro cfg s rs hflag hpos
    obtain ⟨ha, hf⟩ := run_buys_amount cfg rs s
    rw [hflag] at ha hf
    simp only [Bool.toNat_false, Nat.add_zero] at ha hf
    refine ⟨ha, hf, ?_⟩
    rw [ha]
    exact div_le_self hpos (one_le_pow₀ (by norm_num))
  · exact buy_step_fail

/-- Witness for C5: two successful buys halve the size exactly once, and a
failed attempt is a no-op. -/
theorem c5_buy_size_decay_witness :
    ((run_buys cfgA stA [buyOk, buyOk]).current_buy_amount
        = stA.current_buy_amount / 2 ^ (count_succ [buyOk, buyOk] / 2) ∧
      (run_buys cfgA stA [buyOk, buyOk]).is_second_buy
        = decide (count_succ [buyOk, buyOk] % 2 = 1) ∧
      (run_buys cfgA stA [buyOk, buyOk]).current_buy_amount
        ≤ stA.current_buy_amount) ∧
    buy_step cfgA stA buyFail = stA :=
  ⟨c5_buy_size_decay.1 cfgA stA [buyOk, buyOk] rfl (by norm_num [stA]),
   c5_buy_size_decay.2 cfgA stA buyFail rfl⟩

/-- Claim C6: whenever a run of the control loop observes
`mcap_threshold <= usd_market_cap`, the trace ends exactly with the break
followed by a single sell attempt: zero further buys and at most one
subsequent action (the sell) before the worker finishes. -/
theorem c6_mcap_then_single_sell :
    ∀ (cfg : Inputs) (s : WorkerState) (envs : List CycleEnv),
      Act.mcapBreakA ∈ worker_run cfg s envs →
      ∃ pre, worker_run cfg s envs = pre ++ [Act.mcapBreakA, Act.sellA] := by
  intro cfg s envs h
  have hmem : Act.mcapBreakA ∈ (run_loop cfg s envs).1 := by
    unfold worker_run at h
    rcases List.mem_append.mp h with h1 | h2
    · exact h1
    · split at h2 <;> simp at h2
  obtain ⟨pre, hpre, hex, hsell⟩ := run_loop_mcap_shape cfg envs s hmem
  refine ⟨pre, ?_⟩
  unfold worker_run
  simp only [hpre, hex, hsell]
  simp

/-- Witness for C6: a single cycle observing a market cap above the
threshold yields the trace `[mcapBreakA, sellA]`. -/
theorem c6_mcap_then_single_sell_witness :
    ∃ pre, worker_run cfgA stA [envMcap] = pre ++ [Act.mcapBreakA, Act.sellA] :=
  c6_mcap_then_single_sell cfgA stA [envMcap] (by decide)

/-- Claim C9: a `collect` command arriving during a cycle's pacing sleep
sets the terminal flag, so the loop exits at its very next check: the run
performs exactly the current cycle's action and exits, no matter how many
further cycles were scheduled — in particular no buy of any later cycle
happens. -/
theorem c9_collect_exits_loop :
    ∀ (cfg : Inputs) (s : WorkerState) (e : CycleEnv) (rest : List CycleEnv),
      s.is_done = false → e.interrupt = some .collectI →
      ∃ a s', run_loop cfg s (e :: rest) = ([a], s', true) := by
  intro cfg s e rest hdone hint
  cases hcd : cycle_decision cfg s e.metadata with
  | noMetadata =>
    rw [run_loop_cons_noMeta cfg e rest s hdone hcd, hint,
      run_loop_of_done cfg rest _ (apply_interrupt_collect_done s)]
    exact ⟨Act.noMetaA, apply_interrupt s (some .collectI), rfl⟩
  | mcapBreak =>
    rw [run_loop_cons_mcap cfg e rest s hdone hcd]
    exact ⟨Act.mcapBreakA, { s with start_sell := true }, rfl⟩
  | buyAct =>
    rw [run_loop_cons_buy cfg e rest s hdone hcd, hint,
      run_loop_of_done cfg rest _ (apply_interrupt_collect_done (buy_step cfg s e.buy_result))]
    exact ⟨Act.buyA, apply_interrupt (buy_step cfg s e.buy_result) (some .collectI), rfl⟩
  | skipSpend =>
    rw [run_loop_cons_skip cfg e rest s hdone hcd, hint,
      run_loop_of_done cfg rest _ (apply_interrupt_collect_done s)]
    exact ⟨Act.skipA, apply_interrupt s (some .collectI), rfl⟩

/-- Witness for C9: a collect-interrupted cycle followed by further
scheduled cycles ends the loop after the current cycle. -/
theorem c9_collect_exits_loop_witness :
    ∃ a s', run_loop cfgA stA (envCollect :: [envQuiet, envQuiet]) = ([a], s', true) :=
  c9_collect_exits_loop cfgA stA envCollect [envQuiet, envQuiet] rfl rfl

/-- Counterexample to claim C7: with nonzero available holdings (3 tokens)
but a non-null secondary-market pool reference, `sell` reaches the raydium
branch, whose executor call is commented out in the source: it finishes with
an empty signature and the trade executor's sell capability is NOT invoked,
contradicting the claim that a sell with nonzero holdings invokes the
executor for the full held amount. -/
theorem c7_counterexample :
    sell_attempt metaRay (some balSome) true = (.raydiumStub, false) ∧
    balSome.ui_amount = some 3 ∧ (3 : ℚ) ≠ 0 ∧ metaRay.raydium_pool = some 5 := by
  refine ⟨by decide, rfl, by norm_num, rfl⟩

/-- Claim C7 (amended): the sell attempt reports "nothing to sell" exactly
when the holdings query returns zero or null; the executor's sell capability
is invoked exactly when holdings are nonzero and available AND the asset has
no secondary-market pool reference (with a pool reference, the disabled
raydium branch reports an empty signature without invoking the executor);
a successful sell is always for the full held amount; errors — from the
holdings query or the executor — are terminal: the function reports and
returns, never retrying. -/
theorem c7_sell_spec :
    ∀ (meta : TokenMeta) (bal : Option TokenBalance) (k : Bool),
      ((sell_attempt meta bal k).1 = .nothingToSell ↔
        ∃ b, bal = some b ∧ (b.ui_amount = none ∨ b.ui_amount = some 0)) ∧
      ((sell_attempt meta bal k).2 = true ↔
        ∃ b a, bal = some b ∧ b.ui_amount = some a ∧ a ≠ 0 ∧
          meta.raydium_pool = none) ∧
      (∀ a, (sell_attempt meta bal k).1 = .sold a →
        ∃ b, bal = some b ∧ b.ui_amount = some a ∧ k = true) := by
  intro meta bal k
  cases bal with
  | none => simp [sell_attempt]
  | some b =>
    cases hui : b.ui_amount with
    | none => simp [sell_attempt, hui]
    | some a =>
      by_cases ha : a = 0
      · subst ha
        simp [sell_attempt, hui]
      · cases hr : meta.raydium_pool with
        | none =>
          cases k <;> simp [sell_attempt, hui, ha, hr]
        | some p => simp [sell_attempt, hui, ha, hr]

/-- Witness for C7 at a concrete successful pump-side sell. -/
theorem c7_sell_spec_witness :
    ∃ b, some balSome = some b ∧ b.ui_amount = some 3 ∧ true = true :=
  (c7_sell_spec metaLow (some balSome) true).2.2 3 (by decide)

/-- Counterexample to claim C8: an agent that reached `Done` through a
`collect`/`stop` command has `IS_DONE` set but `START_SELL` clear; the
`sell` handler is gated on `START_SELL` only, so a `sell` command sent to
this already-Done agent posts a status message and mutates the state — it is
not a no-op. -/
theorem c8_counterexample :
    stDoneCollect.is_done = true ∧
    handle_cmd stDoneCollect .sellCmd
      = .ok { stDoneCollect with start_sell := true }
          ["Received sell command from the main thread"] ∧
    handle_cmd stDoneCollect .sellCmd ≠ .ok stDoneCollect [] := by
  refine ⟨rfl, by decide, by decide⟩

/-- Claim C8 (amended): `collect` and `stop` are no-ops (no state change, no
message) once `IS_DONE` is set, and `sell` is a no-op once `START_SELL` is
set — which covers agents that became Done via the market-cap exit or a
prior `sell`, but not those made Done by `collect`/`stop`; in particular a
second `stop` after a first successful `stop` has no observable effect. -/
theorem c8_command_idempotence :
    (∀ s : HandlerState, s.is_done = true →
       handle_cmd s .collectCmd = .ok s [] ∧ handle_cmd s .stopCmd = .ok s []) ∧
    (∀ s : HandlerState, s.start_sell = true → handle_cmd s .sellCmd = .ok s []) ∧
    (∀ (s r : HandlerState) (msgs : List String),
       handle_cmd s .stopCmd = .ok r msgs → handle_cmd r .stopCmd = .ok r []) := by
  refine ⟨?_, ?_, ?_⟩
  · intro s h
    exact ⟨by simp [handle_cmd, h], by simp [handle_cmd, h]⟩
  · intro s h
    simp [handle_cmd, h]
  · intro s r msgs h
    cases hd : s.is_done with
    | true =>
      simp [handle_cmd, hd] at h
      rw [← h.1]
      simp [handle_cmd, hd]
    | false =>
      cases hc : s.cancel_sleep_defined with
      | true =>
        simp [handle_cmd, hd, hc] at h
        rw [← h.1]
        simp [handle_cmd]
      | false => simp [handle_cmd, hd, hc] at h

/-- Witness for C8 at concrete states: collect/stop on a Done agent,
sell on a sell-flagged agent, and a second stop after a first stop. -/
theorem c8_command_idempotence_witness :
    (handle_cmd stDoneCollect .collectCmd = .ok stDoneCollect [] ∧
      handle_cmd stDoneCollect .stopCmd = .ok stDoneCollect []) ∧
    handle_cmd stSellDone .sellCmd = .ok stSellDone [] ∧
    handle_cmd stStopped .stopCmd = .ok stStopped [] :=
  ⟨c8_command_idempotence.1 stDoneCollect rfl,
   c8_command_idempotence.2.1 stSellDone rfl,
   c8_command_idempotence.2.2 stReady stStopped ["Stopped by the main thread"]
     (by decide)⟩

/-- Claim C10: `CANCEL_SLEEP` is undefined at module load (before the control
loop's first pacing sleep assigns it); every command is handled without
faulting when the callback is defined, and a `collect` or `stop` arriving
while the agent is not Done and no sleep has started yet calls the undefined
callback and faults — the handler is total only under the precondition that
a pacing sleep has started. -/
theorem c10_handler_totality :
    initial_handler_state.cancel_sleep_defined = false ∧
    (∀ (s : HandlerState) (c : Cmd),
       s.cancel_sleep_defined = true → (handle_cmd s c).is_ok = true) ∧
    (∀ s : HandlerState, s.is_done = false → s.cancel_sleep_defined = false →
       (handle_cmd s .collectCmd).is_ok = false ∧
       (handle_cmd s .stopCmd).is_ok = false) := by
  refine ⟨rfl, ?_, ?_⟩
  · intro s c hc
    cases c with
    | sellCmd =>
      cases hss : s.start_sell <;> simp [handle_cmd, hss, HandleRes.is_ok]
    | collectCmd =>
      cases hd : s.is_done <;> simp [handle_cmd, hd, hc, HandleRes.is_ok]
    | stopCmd =>
      cases hd : s.is_done <;> simp [handle_cmd, hd, hc, HandleRes.is_ok]
    | mintCmd m => rfl
  · intro s hd hc
    exact ⟨by simp [handle_cmd, hd, hc, HandleRes.is_ok],
      by simp [handle_cmd, hd, hc, HandleRes.is_ok]⟩

/-- Witness for C10: with the first sleep started the handler succeeds; on
the initial state (no sleep yet) a collect faults. -/
theorem c10_handler_totality_witness :
    (handle_cmd stReady .collectCmd).is_ok = true ∧
    (handle_cmd initial_handler_state .collectCmd).is_ok = false :=
  ⟨c10_handler_totality.2.1 stReady .collectCmd rfl,
   (c10_handler_totality.2.2 initial_handler_state rfl rfl).1⟩

/-- Counterexample to claim C2: the candidate mint recorded by a
name/symbol match persists across callback invocations.  First a matching
transaction whose resolved identifier 7 is not among its signers is
observed: it does not finalize, but records candidate 7.  The next observed
transaction contains no matching instruction at all, yet because key 7
signs it, the detector finalizes on it — so finalization does not require
the finalizing transaction's own decoded name/symbol to match. -/
theorem c2_counterexample :
    process_event "TOK" "TK" none evCandidate = (some 7, false) ∧
    tx_matches "TOK" "TK" evCandidate = true ∧
    process_event "TOK" "TK" (some 7) evStale = (some 7, true) ∧
    tx_matches "TOK" "TK" evStale = false ∧
    detector_run "TOK" "TK" none [evCandidate, evStale] = (some 7, true) := by
  decide

/-- Claim C2 (amended): whenever the detector finalizes on an observed
transaction, the resolved identifier is among that transaction's signer
accounts — this part holds unconditionally; and when the detector holds no
prior candidate, finalizing on a transaction additionally requires that some
decoded instruction of THAT transaction matches the target name/ticker.
(With a candidate carried over from an earlier matching transaction, a later
transaction can finalize on the signer check alone, as the counterexample
shows; a transaction matching only name/symbol but failing the signer check
never finalizes, by the unconditional signer part.) -/
theorem c2_finalize_requires_signer :
    (∀ (tn tk : String) (m : Option Nat) (ev : LogEvent),
       (process_event tn tk m ev).2 = true →
       ∃ pk, (process_event tn tk m ev).1 = some pk ∧ pk ∈ event_signers ev) ∧
    (∀ (tn tk : String) (ev : LogEvent),
       (process_event tn tk none ev).2 = true → tx_matches tn tk ev = true) := by
  constructor
  · intro tn tk m ev h
    obtain ⟨herr, hlogs, htx⟩ := ev
    cases herr with
    | true => simp [process_event] at h
    | false =>
      cases hlogs with
      | none => simp [process_event] at h
      | some ls =>
        by_cases hmk : mintto_marker ∈ ls
        · cases htx with
          | none => simp [process_event, hmk] at h
          | some tx =>
            cases hptb : tx.post_token_balances with
            | none => simp [process_event, hmk, hptb] at h
            | some ptb =>
              cases hinn : tx.inner_instructions with
              | none => simp [process_event, hmk, hptb, hinn] at h
              | some inners =>
                rw [process_event_eq tn tk m ls tx ptb inners hmk hptb hinn] at h ⊢
                obtain ⟨res, hscan⟩ : ∃ r, scan_instrs tn tk ptb m inners.flatten = r :=
                  ⟨_, rfl⟩
                rw [hscan] at h ⊢
                cases res with
                | crash m1 => simp at h
                | ok m1 =>
                  simp [event_signers, mint_in_signers] at h ⊢
                  obtain ⟨pk, hmem, heq⟩ := h
                  exact ⟨pk, heq, hmem⟩
        · simp [process_event, hmk] at h
  · intro tn tk ev h
    obtain ⟨herr, hlogs, htx⟩ := ev
    cases herr with
    | true => simp [process_event] at h
    | false =>
      cases hlogs with
      | none => simp [process_event] at h
      | some ls =>
        by_cases hmk : mintto_marker ∈ ls
        · cases htx with
          | none => simp [process_event, hmk] at h
          | some tx =>
            cases hptb : tx.post_token_balances with
            | none => simp [process_event, hmk, hptb] at h
            | some ptb =>
              cases hinn : tx.inner_instructions with
              | none => simp [process_event, hmk, hptb, hinn] at h
              | some inners =>
                by_cases hmt : inners.flatten.any (instr_matches tn tk) = true
                · simpa [tx_matches, hinn] using hmt
                · have hf : inners.flatten.any (instr_matches tn tk) = false := by
                    cases hx : inners.flatten.any (instr_matches tn tk) with
                    | false => rfl
                    | true => exact absurd hx hmt
                  have hall : ∀ i ∈ inners.flatten, instr_matches tn tk i = false := by
                    intro i hi
                    simpa using List.any_eq_false.mp hf i hi
                  have hscan := scan_instrs_no_match tn tk ptb inners.flatten none hall
                  rw [process_event_eq tn tk none ls tx ptb inners hmk hptb hinn,
                    hscan] at h
                  simp [mint_in_signers_none] at h
        · simp [process_event, hmk] at h

/-- Witness for C2 on a genuinely finalizing transaction: the resolved
identifier 7 signs it and its instruction matches the target. -/
theorem c2_finalize_requires_signer_witness :
    (∃ pk, (process_event "TOK" "TK" none evFinal).1 = some pk ∧
      pk ∈ event_signers evFinal) ∧
    tx_matches "TOK" "TK" evFinal = true :=
  ⟨c2_finalize_requires_signer.1 "TOK" "TK" none evFinal (by decide),
   c2_finalize_requires_signer.2 "TOK" "TK" evFinal (by decide)⟩

/-- Counterexample to claim C3: with a nonempty credential list shorter than
`config.thread_cnt`, `start_workers` creates `thread_cnt` (= 2) workers, not
`min(thread_cnt, #credentials)` (= 1); the second worker is bound to no
credential at all (the JS out-of-bounds read `secrets[1]`). -/
theorem c3_counterexample :
    start_workers cfgB [[7]]
      = .ok [{ secret := some [7], id := 1, config := cfgB },
             { secret := none, id := 2, config := cfgB }] ∧
    cfgB.thread_cnt = 2 ∧ min cfgB.thread_cnt [[7]].length = 1 := by
  refine ⟨rfl, rfl, by decide⟩

/-- Claim C3 (amended): `start_workers` fails with `NoCredentials` exactly
when the credential list is empty; otherwise it creates exactly
`config.thread_cnt` agents with sequential identifiers starting at 1, the
j-th bound to the j-th credential when one exists and to none otherwise —
so the stated `min(agent_count, #credentials)` count and the all-distinct
credential binding hold only when `agent_count ≤ #credentials`. -/
theorem c3_start_workers_spec :
    ∀ (cfg : BotConfig) (secrets : List (List Nat)),
      (secrets = [] → start_workers cfg secrets = .error .NoCredentials) ∧
      (secrets ≠ [] → ∃ ws, start_workers cfg secrets = .ok ws ∧
        ws.length = cfg.thread_cnt ∧
        ∀ j, j < cfg.thread_cnt →
          ws.get? j = some { secret := secrets.get? j, id := j + 1, config := cfg }) := by
  intro cfg secrets
  constructor
  · intro h; subst h; rfl
  · intro h
    have hne : secrets.isEmpty = false := by
      cases secrets with
      | nil => exact absurd rfl h
      | cons a l => rfl
    refine ⟨(List.range cfg.thread_cnt).map fun i =>
      { secret := secrets.get? i, id := i + 1, config := cfg }, ?_, by simp, ?_⟩
    · simp [start_workers, hne]
    · intro j hj
      simp [List.getElem?_map, List.getElem?_range, hj]

/-- Witness for C3: the empty list fails, and a two-credential list with
`thread_cnt = 2` yields two workers bound to credentials 0 and 1. -/
theorem c3_start_workers_spec_witness :
    start_workers cfgB [] = .error .NoCredentials ∧
    (∃ ws, start_workers cfgB [[7], [8]] = .ok ws ∧
      ws.length = cfgB.thread_cnt ∧
      ∀ j, j < cfgB.thread_cnt →
        ws.get? j = some { secret := [[7], [8]].get? j, id := j + 1, config := cfgB }) :=
  ⟨(c3_start_workers_spec cfgB []).1 rfl,
   (c3_start_workers_spec cfgB [[7], [8]]).2 (by simp)⟩

end SolanaBot
